import Mathlib

/-!
Shallow embedding of the moon7-inspect runtime type-checking library
(src/inspect.ts) together with proofs about its combinator algebra.

JavaScript values are modelled by the inductive type JValue. Heap-allocated
values (arrays, objects, maps, sets, iterator objects, boxed primitives)
carry a reference identifier modelling JavaScript reference identity; the
model assumes distinct live heap values carry distinct identifiers, as in a
real heap. Numbers are modelled by JNum: NaN, the two infinities, and
finite doubles as rationals (every finite double is a rational, and the
rationals arising here are exactly representable doubles).

Inspectors are modelled by Insp: the two exported sentinel functions isAny
and isNever are distinguished constructors, because the source compares an
inspector against them with reference equality; every other inspector is
wrapped as `custom f` around its underlying boolean function and is never
reference-equal to a sentinel, exactly like a fresh closure in the source.
-/

namespace Inspect

/-- Model of a JavaScript number: NaN, an infinity with its sign, or a
finite value given as a rational. -/
inductive JNum where
  | nan
  | inf (pos : Bool)
  | fin (q : ℚ)

/-- Model of a JavaScript runtime value. Heap values carry a reference
identifier used by strict equality. -/
inductive JValue where
  | undefined
  | null
  | bool (b : Bool)
  | num (n : JNum)
  | str (s : String)
  | arr (ref : Nat) (elems : List JValue)
  | obj (ref : Nat) (fields : List (String × JValue))
  | map (ref : Nat) (entries : List (JValue × JValue))
  | set (ref : Nat) (elems : List JValue)
  | iterObj (ref : Nat) (elems : List JValue)
  | boxedStr (ref : Nat) (s : String)
  | boxedNum (ref : Nat) (n : JNum)
  | boxedBool (ref : Nat) (b : Bool)

/-- JavaScript strict equality on numbers: NaN is unequal to everything
(itself included), infinities compare by sign, finite values by numeric
value. -/
def jsNumEq : JNum → JNum → Bool
  | .inf a, .inf b => a == b
  | .fin p, .fin q => p == q
  | _, _ => false

/-- JavaScript strict equality (the triple-equals operator) on modelled
values: primitives compare by value (with NaN unequal even to itself),
heap values compare by reference identifier. -/
def jsStrictEq : JValue → JValue → Bool
  | .undefined, .undefined => true
  | .null, .null => true
  | .bool a, .bool b => a == b
  | .num a, .num b => jsNumEq a b
  | .str a, .str b => a == b
  | .arr r _, .arr t _ => r == t
  | .obj r _, .obj t _ => r == t
  | .map r _, .map t _ => r == t
  | .set r _, .set t _ => r == t
  | .iterObj r _, .iterObj t _ => r == t
  | .boxedStr r _, .boxedStr t _ => r == t
  | .boxedNum r _, .boxedNum t _ => r == t
  | .boxedBool r _, .boxedBool t _ => r == t
  | _, _ => false

/-- isUndefined from the source: x === undefined. -/
def isUndefined (x : JValue) : Bool := jsStrictEq x .undefined

/-- isNullish from the source: x == null; the loose equality accepts
exactly null and undefined. -/
def isNullish : JValue → Bool
  | .undefined => true
  | .null => true
  | _ => false

/-- isBoolean from the source: x === true || x === false. A boxed boolean
is a distinct heap reference and matches neither comparison. -/
def isBoolean (x : JValue) : Bool :=
  jsStrictEq x (.bool true) || jsStrictEq x (.bool false)

/-- isNumber from the source: typeof x === "number". A boxed number has
typeof "object". -/
def isNumber : JValue → Bool
  | .num _ => true
  | _ => false

/-- isString from the source: typeof x === "string" || x instanceof String;
accepts both primitive and boxed strings. -/
def isString : JValue → Bool
  | .str _ => true
  | .boxedStr _ _ => true
  | _ => false

/-- isPrimitive from the source: isNullish(x) || isNumber(x) || isString(x)
|| isBoolean(x). -/
def isPrimitive (x : JValue) : Bool :=
  isNullish x || isNumber x || isString x || isBoolean x

/-- Truncation of a rational toward zero, the ToIntegerOrInfinity step the
unsigned-shift conversion applies to a finite number. Int.tdiv is
truncating division and the denominator of a rational is positive. -/
def ratTrunc (q : ℚ) : Int := Int.tdiv q.num (q.den : Int)

/-- The ECMAScript ToUint32 conversion on a modelled number: NaN and the
infinities map to 0, a finite value is truncated toward zero and reduced
modulo 2 to the 32 into the interval [0, 4294967296). -/
def toUint32 : JNum → Nat
  | .nan => 0
  | .inf _ => 0
  | .fin q => (ratTrunc q % (4294967296 : Int)).toNat

/-- The builtin integer test used by the source (Number.isInteger): finite
with zero fractional part; false on NaN and the infinities. -/
def jsIsInteger : JNum → Bool
  | .fin q => q.den == 1
  | _ => false

/-- isInt from the source: Number.isInteger(x); false on every non-number
because Number.isInteger is. -/
def isInt : JValue → Bool
  | .num n => jsIsInteger n
  | _ => false

/-- isUInt32 from the source: x >>> 0 === x. The left side is always a
number (ToUint32 applied to ToNumber of x), so the strict equality can only
hold when x itself is a number; for a number n it compares ToUint32(n)
with n. -/
def isUInt32 : JValue → Bool
  | .num n => jsNumEq (.fin ((toUint32 n : ℚ))) n
  | _ => false

/-- isUInt8 from the source: Number.isInteger(x) && x >= 0 && x <= 255;
after the integer guard the comparisons coincide with rational order. -/
def isUInt8 : JValue → Bool
  | .num (.fin q) => q.den == 1 && decide ((0 : ℚ) ≤ q) && decide (q ≤ 255)
  | _ => false

/-- isObject from the source: x !== null && typeof x === "object". Arrays,
plain objects, maps, sets, iterator objects and boxed primitives all have
typeof "object"; primitives and the two absence sentinels do not. -/
def isObject : JValue → Bool
  | .arr _ _ | .obj _ _ | .map _ _ | .set _ _ | .iterObj _ _
  | .boxedStr _ _ | .boxedNum _ _ | .boxedBool _ _ => true
  | _ => false

/-- isArray from the source: x instanceof Array. -/
def isArray : JValue → Bool
  | .arr _ _ => true
  | _ => false

/-- isMap from the source: x instanceof Map. -/
def isMap : JValue → Bool
  | .map _ _ => true
  | _ => false

/-- isIterable from the source: x != null && typeof the well-known iterator
member of x === "function". Arrays, strings (primitive and boxed), maps,
sets and iterator objects expose the iteration protocol; plain objects,
boxed numbers and boxed booleans do not. -/
def isIterable : JValue → Bool
  | .arr _ _ | .str _ | .boxedStr _ _ | .map _ _ | .set _ _ | .iterObj _ _ => true
  | _ => false

/-- The element sequence produced by the iteration protocol (a for..of
loop) over an iterable value: array and set elements in order, string code
points as one-character strings, map entries as fresh two-element
[key, value] arrays, the remaining elements of an iterator object. -/
def jsIterate : JValue → List JValue
  | .arr _ xs => xs
  | .str s => s.toList.map fun c => .str (String.singleton c)
  | .boxedStr _ s => s.toList.map fun c => .str (String.singleton c)
  | .map _ es => es.map fun p => .arr 0 [p.1, p.2]
  | .set _ xs => xs
  | .iterObj _ xs => xs
  | _ => []

/-- The own enumerable string keys of a value, as a for..in loop
enumerates them: field names of a plain object, index strings of an array
or boxed string; maps, sets, iterator objects and boxed numbers or
booleans keep their data in internal slots and expose no own enumerable
keys; primitives have none. -/
def jsOwnEnumKeys : JValue → List String
  | .obj _ fs => fs.map fun p => p.1
  | .arr _ xs => (List.range xs.length).map toString
  | .boxedStr _ s => (List.range s.length).map toString
  | _ => []

/-- Property access x[key] with a string key: object fields by lookup
(undefined when the key is absent), the length property and canonical
index strings on arrays and strings, the size accessor on maps and sets;
every other access yields undefined. -/
def jsGet : JValue → String → JValue
  | .obj _ fs, k => (List.lookup k fs).getD .undefined
  | .arr _ xs, k =>
      if k == "length" then .num (.fin (xs.length : ℚ))
      else match k.toNat? with
        | some i => if toString i == k then xs.getD i .undefined else .undefined
        | none => .undefined
  | .str s, k =>
      if k == "length" then .num (.fin (s.length : ℚ))
      else match k.toNat? with
        | some i =>
            if toString i == k then
              match s.toList.get? i with
              | some c => .str (String.singleton c)
              | none => .undefined
            else .undefined
        | none => .undefined
  | .boxedStr _ s, k =>
      if k == "length" then .num (.fin (s.length : ℚ))
      else match k.toNat? with
        | some i =>
            if toString i == k then
              match s.toList.get? i with
              | some c => .str (String.singleton c)
              | none => .undefined
            else .undefined
        | none => .undefined
  | .map _ es, k => if k == "size" then .num (.fin (es.length : ℚ)) else .undefined
  | .set _ xs, k => if k == "size" then .num (.fin (xs.length : ℚ)) else .undefined
  | _, _ => .undefined

/-- An inspector value. The source compares an inspector against the
exported functions isNever and isAny with reference equality; those two
references are the constructors never and any, and every other inspector is
custom f, which like a fresh closure is never reference-equal to either
sentinel. -/
inductive Insp where
  | any
  | never
  | custom (f : JValue → Bool)

/-- Calling an inspector on a value: isAny always accepts, isNever always
rejects, a custom inspector runs its function. -/
def Insp.apply : Insp → JValue → Bool
  | .any, _ => true
  | .never, _ => false
  | .custom f, x => f x

/-- The reference comparison isT === isNever from the source. -/
def Insp.isNeverRef : Insp → Bool
  | .never => true
  | _ => false

/-- The reference comparison isT === isAny from the source. -/
def Insp.isAnyRef : Insp → Bool
  | .any => true
  | _ => false

/-- isAnyOf from the source: inspectors.some(isT => isT(x)). -/
def isAnyOf (il : List Insp) (x : JValue) : Bool :=
  il.any fun isT => isT.apply x

/-- isAllOf from the source: inspectors.every(isT => isT(x)). -/
def isAllOf (il : List Insp) (x : JValue) : Bool :=
  il.all fun isT => isT.apply x

/-- isOptional from the source: isAnyOf(isUndefined, isT), a fresh
closure. -/
def isOptional (isT : Insp) : Insp :=
  .custom (isAnyOf [.custom isUndefined, isT])

/-- isExact from the source: the returned inspector tests x === value. -/
def isExact (v : JValue) (x : JValue) : Bool := jsStrictEq x v

/-- isIterableOf from the source: a non-iterable is rejected; then an
inspector reference-equal to isNever rejects before iterating, one
reference-equal to isAny accepts without iterating, and otherwise every
produced element is checked. -/
def isIterableOf (isT : Insp) (x : JValue) : Bool :=
  if !isIterable x then false
  else if isT.isNeverRef then false
  else if isT.isAnyRef then true
  else (jsIterate x).all isT.apply

/-- isMapOf from the source: isMap(x) && isIterableOf(isK)(x.keys()) &&
isIterableOf(isV)(x.values()); the keys() and values() calls yield
iterator objects producing the keys and the values of the map. -/
def isMapOf (isK isV : Insp) (x : JValue) : Bool :=
  match x with
  | .map r es =>
      isIterableOf isK (.iterObj r (es.map fun p => p.1)) &&
      isIterableOf isV (.iterObj r (es.map fun p => p.2))
  | _ => false

/-- The index loop of isTupleOf: for each index i below the inspector
count, the loop checks inspectors[i](x[i]), where reading past the end of
the array yields undefined. -/
def tupleCheck : List Insp → List JValue → Bool
  | [], _ => true
  | isT :: il, [] => isT.apply .undefined && tupleCheck il []
  | isT :: il, v :: vs => isT.apply v && tupleCheck il vs

/-- isTupleOf from the source: false on non-arrays, otherwise the index
loop over the inspector list. -/
def isTupleOf (il : List Insp) (x : JValue) : Bool :=
  match x with
  | .arr _ xs => tupleCheck il xs
  | _ => false

/-- isObjectOf from the source: isObject(x), then for every [key, isV]
entry of the shape, isV(x[key]). -/
def isObjectOf (sh : List (String × Insp)) (x : JValue) : Bool :=
  isObject x && sh.all fun p => (p.2).apply (jsGet x p.1)

/-- isPartialOf from the source: isObject(x), then a for..in loop over the
keys of x: every enumerated key that is present in the shape must have its
value accepted by the corresponding inspector; keys of x outside the shape
are skipped. -/
def isPartialOf (sh : List (String × Insp)) (x : JValue) : Bool :=
  isObject x &&
    (jsOwnEnumKeys x).all fun k =>
      match List.lookup k sh with
      | some isV => isV.apply (jsGet x k)
      | none => true

/-- A thrown JavaScript exception, abstracted to its message. -/
abbrev JsErr := String

/-- The lazy combinator is(supplier) from the source, in an effectful
shallow embedding: the supplier may throw and its successive invocations
are numbered, so `supplier k` is the behaviour of its k-th call and the
Nat state counts the invocations made so far. Applying the returned
inspector to x calls the supplier once, then immediately applies the
inspector it returned to x. -/
def is (supplier : Nat → Except JsErr (JValue → Bool)) (x : JValue)
    (calls : Nat) : Except JsErr (Bool × Nat) :=
  match supplier calls with
  | .error e => .error e
  | .ok isT => .ok (isT x, calls + 1)

/-! ## Theorems -/

/-- C1: isIterableOf(isT)(x) is false on every non-iterable input; on an
iterable input it is false when isT is reference-equal to isNever (even
when the iterable is empty), true without iterating when isT is
reference-equal to isAny, and otherwise true exactly when every produced
element satisfies isT, an empty iterable passing vacuously. -/
theorem spec_c1 (isT : Insp) (x : JValue) :
    (isIterable x = false → isIterableOf isT x = false)
  ∧ (isIterable x = true → isT.isNeverRef = true → isIterableOf isT x = false)
  ∧ (isIterable x = true → isT.isAnyRef = true → isIterableOf isT x = true)
  ∧ (isIterable x = true → isT.isNeverRef = false → isT.isAnyRef = false →
      (isIterableOf isT x = true ↔ ∀ v ∈ jsIterate x, isT.apply v = true)) := by
  refine ⟨?_, ?_, ?_, ?_⟩
  · intro h; simp [isIterableOf, h]
  · intro h1 h2; simp [isIterableOf, h1, h2]
  · intro h1 h2
    cases isT with
    | never => exact absurd h2 (by simp [Insp.isAnyRef])
    | any => simp [isIterableOf, h1, Insp.isNeverRef, Insp.isAnyRef]
    | custom f => exact absurd h2 (by simp [Insp.isAnyRef])
  · intro h1 h2 h3
    cases isT with
    | never => exact absurd h2 (by simp [Insp.isNeverRef])
    | any => exact absurd h3 (by simp [Insp.isAnyRef])
    | custom f =>
        simp [isIterableOf, h1, Insp.isNeverRef, Insp.isAnyRef, Insp.apply,
          List.all_eq_true]

/-- C1 witness: a concrete iterable and a concrete non-sentinel inspector
instantiating the universal element characterisation. -/
theorem spec_c1_witness :
    isIterable (.arr 7 [.num (.fin 1), .num (.fin 2)]) = true ∧
    Insp.isNeverRef (.custom isNumber) = false ∧
    Insp.isAnyRef (.custom isNumber) = false ∧
    (isIterableOf (.custom isNumber) (.arr 7 [.num (.fin 1), .num (.fin 2)]) = true ↔
      ∀ v ∈ jsIterate (.arr 7 [.num (.fin 1), .num (.fin 2)]),
        Insp.apply (.custom isNumber) v = true) :=
  ⟨rfl, rfl, rfl,
    (spec_c1 (.custom isNumber) (.arr 7 [.num (.fin 1), .num (.fin 2)])).2.2.2
      rfl rfl rfl⟩

/-- The index loop of isTupleOf coincides, on an array at least as long as
the inspector list, with the conjunction over the positional pairs. -/
theorem tupleCheck_eq_zip (il : List Insp) (xs : List JValue)
    (h : il.length ≤ xs.length) :
    tupleCheck il xs = (il.zip xs).all fun p => (p.1).apply p.2 := by
  induction il generalizing xs with
  | nil => simp [tupleCheck]
  | cons isT il ih =>
      cases xs with
      | nil => simp at h
      | cons v vs =>
          simp only [tupleCheck, List.zip_cons_cons, List.all_cons]
          rw [ih vs (by simpa using h)]

/-- The index loop of isTupleOf reads only the first inspector-count
elements of the array. -/
theorem tupleCheck_take (il : List Insp) (xs ys : List JValue)
    (h1 : il.length ≤ xs.length) (h2 : il.length ≤ ys.length)
    (h : xs.take il.length = ys.take il.length) :
    tupleCheck il xs = tupleCheck il ys := by
  induction il generalizing xs ys with
  | nil => cases xs <;> cases ys <;> simp [tupleCheck]
  | cons isT il ih =>
      cases xs with
      | nil => simp at h1
      | cons v vs =>
          cases ys with
          | nil => simp at h2
          | cons w ws =>
              simp only [List.length_cons, List.take_succ_cons, List.cons.injEq] at h
              simp only [tupleCheck, h.1]
              rw [ih vs ws (by simpa using h1) (by simpa using h2) h.2]

/-- C2: on an array at least as long as the inspector list, isTupleOf is
exactly the conjunction of the k-th inspector applied to the k-th element;
the result never depends on elements past the inspector count; non-array
inputs are rejected. -/
theorem spec_c2 (il : List Insp) (r t : Nat) (xs ys : List JValue)
    (v : JValue) :
    (il.length ≤ xs.length →
      (isTupleOf il (.arr r xs) = true ↔
        ∀ p ∈ il.zip xs, (p.1).apply p.2 = true))
  ∧ (il.length ≤ xs.length → il.length ≤ ys.length →
      xs.take il.length = ys.take il.length →
      isTupleOf il (.arr r xs) = isTupleOf il (.arr t ys))
  ∧ (isArray v = false → isTupleOf il v = false) := by
  refine ⟨?_, ?_, ?_⟩
  · intro h
    show tupleCheck il xs = true ↔ _
    rw [tupleCheck_eq_zip il xs h, List.all_eq_true]
  · intro h1 h2 h
    show tupleCheck il xs = tupleCheck il ys
    exact tupleCheck_take il xs ys h1 h2 h
  · intro h
    cases v <;> simp_all [isArray, isTupleOf]

/-- C2 witness: a concrete two-inspector tuple check over a longer
concrete array, instantiating both the conjunction law and the
tail-independence law. -/
theorem spec_c2_witness :
    ([Insp.custom isNumber, Insp.custom isString].length ≤
      [JValue.num (.fin 1), JValue.str "a", JValue.bool true].length) ∧
    (isTupleOf [Insp.custom isNumber, Insp.custom isString]
        (.arr 0 [.num (.fin 1), .str "a", .bool true]) = true ↔
      ∀ p ∈ [Insp.custom isNumber, Insp.custom isString].zip
          [JValue.num (.fin 1), JValue.str "a", JValue.bool true],
        Insp.apply p.1 p.2 = true) ∧
    isTupleOf [Insp.custom isNumber, Insp.custom isString]
        (.arr 0 [.num (.fin 1), .str "a", .bool true]) =
      isTupleOf [Insp.custom isNumber, Insp.custom isString]
        (.arr 1 [.num (.fin 1), .str "a", .null]) :=
  ⟨by decide,
    (spec_c2 [Insp.custom isNumber, Insp.custom isString] 0 1
      [JValue.num (.fin 1), JValue.str "a", JValue.bool true]
      [JValue.num (.fin 1), JValue.str "a", JValue.null] .undefined).1 (by decide),
    (spec_c2 [Insp.custom isNumber, Insp.custom isString] 0 1
      [JValue.num (.fin 1), JValue.str "a", JValue.bool true]
      [JValue.num (.fin 1), JValue.str "a", JValue.null] .undefined).2.1
      (by decide) (by decide) rfl⟩

/-- C9: a one-element union or intersection behaves exactly as its single
inspector; the empty union rejects every value and the empty intersection
accepts every value. -/
theorem spec_c9 (isA : Insp) (v : JValue) :
    isAnyOf [isA] v = isA.apply v
  ∧ isAllOf [isA] v = isA.apply v
  ∧ isAnyOf [] v = false
  ∧ isAllOf [] v = true := by
  simp [isAnyOf, isAllOf]

/-- A key that an association-list lookup fails to find differs from every
key of the list. -/
theorem lookup_none_ne {α : Type} (sh : List (String × α)) (k : String)
    (h : List.lookup k sh = none) : ∀ p ∈ sh, k ≠ p.1 := by
  induction sh with
  | nil => simp
  | cons a t ih =>
      rw [List.lookup_cons] at h
      by_cases hk : (k == a.1) = true
      · rw [hk] at h; simp at h
      · rw [Bool.not_eq_true] at hk
        rw [hk] at h
        intro p hp
        rcases List.mem_cons.mp hp with h1 | h2
        · subst h1; exact fun he => (by simp [he] at hk)
        · exact ih h p h2

/-- A single step of the for..in body of isPartialOf: the key check
succeeds exactly when every inspector the shape holds at that key accepts
the property value. -/
theorem partial_step (sh : List (String × Insp)) (x : JValue) (k : String) :
    ((match List.lookup k sh with
      | some isV => isV.apply (jsGet x k)
      | none => true) = true ↔
    ∀ isV, List.lookup k sh = some isV → isV.apply (jsGet x k) = true) := by
  cases h : List.lookup k sh with
  | none => simp
  | some isV => simp [h]

/-- C3: isPartialOf rejects non-objects; on an object it holds exactly
when every enumerated own key that also appears in the shape has its
property value accepted by the corresponding inspector; the empty object
always passes; and the result depends only on the presence and values of
the keys of the object that appear in the shape. -/
theorem spec_c3 (sh : List (String × Insp)) (x y : JValue) (r : Nat) :
    (isObject x = false → isPartialOf sh x = false)
  ∧ (isObject x = true →
      (isPartialOf sh x = true ↔
        ∀ k ∈ jsOwnEnumKeys x, ∀ isV, List.lookup k sh = some isV →
          isV.apply (jsGet x k) = true))
  ∧ isPartialOf sh (.obj r []) = true
  ∧ (isObject x = true → isObject y = true →
      (∀ k isV, List.lookup k sh = some isV →
        ((k ∈ jsOwnEnumKeys x ↔ k ∈ jsOwnEnumKeys y) ∧ jsGet x k = jsGet y k)) →
      isPartialOf sh x = isPartialOf sh y) := by
  have main : ∀ z : JValue, isObject z = true →
      (isPartialOf sh z = true ↔
        ∀ k ∈ jsOwnEnumKeys z, ∀ isV, List.lookup k sh = some isV →
          isV.apply (jsGet z k) = true) := by
    intro z hz
    unfold isPartialOf
    rw [hz, Bool.true_and, List.all_eq_true]
    constructor
    · intro H k hk; exact (partial_step sh z k).mp (H k hk)
    · intro H k hk; exact (partial_step sh z k).mpr (H k hk)
  refine ⟨?_, main x, ?_, ?_⟩
  · intro h; simp [isPartialOf, h]
  · simp [isPartialOf, isObject, jsOwnEnumKeys]
  · intro hx hy hagree
    rw [Bool.eq_iff_iff, main x hx, main y hy]
    constructor
    · intro H k hk isV hl
      have ha := hagree k isV hl
      rw [← ha.2]
      exact H k (ha.1.mpr hk) isV hl
    · intro H k hk isV hl
      have ha := hagree k isV hl
      rw [ha.2]
      exact H k (ha.1.mp hk) isV hl

/-- C3 witness: a concrete shape and concrete objects instantiating the
key-driven characterisation and the dependence law. -/
theorem spec_c3_witness :
    isObject (.obj 3 [("a", .num (.fin 1)), ("z", .bool true)]) = true ∧
    (isPartialOf [("a", .custom isNumber), ("b", .custom isString)]
        (.obj 3 [("a", .num (.fin 1)), ("z", .bool true)]) = true ↔
      ∀ k ∈ jsOwnEnumKeys (.obj 3 [("a", .num (.fin 1)), ("z", .bool true)]),
        ∀ isV, List.lookup k
            [("a", Insp.custom isNumber), ("b", Insp.custom isString)] = some isV →
          isV.apply (jsGet (.obj 3 [("a", .num (.fin 1)), ("z", .bool true)]) k) = true) ∧
    isPartialOf [("a", .custom isNumber)] (.obj 9 []) = true :=
  ⟨rfl,
    (spec_c3 [("a", Insp.custom isNumber), ("b", Insp.custom isString)]
      (.obj 3 [("a", .num (.fin 1)), ("z", .bool true)]) .undefined 0).2.1 rfl,
    (spec_c3 [("a", Insp.custom isNumber)] .undefined .undefined 9).2.2.1⟩

/-- C4: isObjectOf rejects non-objects; on an object it holds exactly when
every entry of the shape accepts the property read at its key; prepending
to an object a property whose key is not in the shape never changes the
result; a key absent from an object reads as undefined; and an isOptional
shape entry accepts that undefined absence sentinel. -/
theorem spec_c4 (sh : List (String × Insp)) (x : JValue) (r t : Nat)
    (k : String) (v : JValue) (fs : List (String × JValue)) (isT : Insp) :
    (isObject x = false → isObjectOf sh x = false)
  ∧ (isObject x = true →
      (isObjectOf sh x = true ↔ ∀ p ∈ sh, (p.2).apply (jsGet x p.1) = true))
  ∧ (List.lookup k sh = none →
      isObjectOf sh (.obj r ((k, v) :: fs)) = isObjectOf sh (.obj t fs))
  ∧ (List.lookup k fs = none → jsGet (.obj r fs) k = .undefined)
  ∧ (isOptional isT).apply .undefined = true := by
  refine ⟨?_, ?_, ?_, ?_, ?_⟩
  · intro h; simp [isObjectOf, h]
  · intro h
    unfold isObjectOf
    rw [h, Bool.true_and, List.all_eq_true]
  · intro h
    have hne := lookup_none_ne sh k h
    unfold isObjectOf
    rw [Bool.eq_iff_iff]
    simp only [isObject, Bool.true_and, List.all_eq_true]
    constructor
    · intro H p hp
      have := H p hp
      rwa [show jsGet (.obj r ((k, v) :: fs)) p.1 = jsGet (.obj t fs) p.1 by
        simp only [jsGet, List.lookup_cons]
        rw [show (p.1 == k) = false from
          beq_eq_false_iff_ne.mpr fun he => hne p hp he.symm]] at this
    · intro H p hp
      have := H p hp
      rwa [show jsGet (.obj r ((k, v) :: fs)) p.1 = jsGet (.obj t fs) p.1 by
        simp only [jsGet, List.lookup_cons]
        rw [show (p.1 == k) = false from
          beq_eq_false_iff_ne.mpr fun he => hne p hp he.symm]]
  · intro h; simp [jsGet, h]
  · rfl

/-- C4 witness: a concrete shape over a concrete object instantiating the
shape-driven characterisation, the open-extension law at a fresh key, and
the absent-key sentinel reading. -/
theorem spec_c4_witness :
    isObject (.obj 2 [("a", .num (.fin 1))]) = true ∧
    (isObjectOf [("a", .custom isNumber)] (.obj 2 [("a", .num (.fin 1))]) = true ↔
      ∀ p ∈ [("a", Insp.custom isNumber)],
        Insp.apply p.2 (jsGet (.obj 2 [("a", .num (.fin 1))]) p.1) = true) ∧
    isObjectOf [("a", .custom isNumber)]
        (.obj 4 [("extra", .bool true), ("a", .num (.fin 1))]) =
      isObjectOf [("a", .custom isNumber)] (.obj 2 [("a", .num (.fin 1))]) ∧
    jsGet (.obj 2 [("a", .num (.fin 1))]) "b" = .undefined :=
  ⟨rfl,
    (spec_c4 [("a", Insp.custom isNumber)] (.obj 2 [("a", .num (.fin 1))])
      4 2 "extra" (.bool true) [("a", .num (.fin 1))] .any).2.1 rfl,
    (spec_c4 [("a", Insp.custom isNumber)] (.obj 2 [("a", .num (.fin 1))])
      4 2 "extra" (.bool true) [("a", .num (.fin 1))] .any).2.2.1 rfl,
    (spec_c4 [("a", Insp.custom isNumber)] (.obj 2 [("a", .num (.fin 1))])
      4 2 "b" (.bool true) [("a", .num (.fin 1))] .any).2.2.2.1 rfl⟩

/-- C5 counterexample: the empty map, checked with the never sentinel as
key and value inspectors, is rejected by isMapOf although it is a map and
the universally quantified key and value conditions of the claim hold
vacuously, so the claimed equivalence fails at this input. -/
theorem spec_c5_cex :
    isMap (JValue.map 0 []) = true ∧
    (∀ k ∈ ([] : List (JValue × JValue)).map Prod.fst,
      Insp.apply .never k = true) ∧
    isMapOf .never .never (JValue.map 0 []) = false :=
  ⟨rfl, by simp, rfl⟩

/-- C5 as amended: isMapOf rejects non-maps; when the key or the value
inspector is reference-equal to the isNever sentinel the result is false
even on the empty map; when both are reference-equal to isAny every map is
accepted; when neither inspector is one of the two sentinels, a map is
accepted exactly when all of its keys satisfy isK and all of its values
satisfy isV, checked independently and vacuously true on the empty map;
and when exactly one inspector is reference-equal to isAny, its side is
accepted without iterating and a map is accepted exactly when the other,
non-sentinel side passes element-wise. -/
theorem spec_c5 (isK isV : Insp) (r : Nat) (es : List (JValue × JValue))
    (x : JValue) :
    (isMap x = false → isMapOf isK isV x = false)
  ∧ (isK.isNeverRef = true ∨ isV.isNeverRef = true →
      isMapOf isK isV (.map r es) = false)
  ∧ (isK.isAnyRef = true → isV.isAnyRef = true →
      isMapOf isK isV (.map r es) = true)
  ∧ (isK.isNeverRef = false → isK.isAnyRef = false →
     isV.isNeverRef = false → isV.isAnyRef = false →
      (isMapOf isK isV (.map r es) = true ↔
        (∀ k ∈ es.map Prod.fst, isK.apply k = true) ∧
        (∀ v ∈ es.map Prod.snd, isV.apply v = true)))
  ∧ (isK.isAnyRef = true → isV.isNeverRef = false → isV.isAnyRef = false →
      (isMapOf isK isV (.map r es) = true ↔
        ∀ v ∈ es.map Prod.snd, isV.apply v = true))
  ∧ (isV.isAnyRef = true → isK.isNeverRef = false → isK.isAnyRef = false →
      (isMapOf isK isV (.map r es) = true ↔
        ∀ k ∈ es.map Prod.fst, isK.apply k = true)) := by
  refine ⟨?_, ?_, ?_, ?_, ?_, ?_⟩
  · intro h; cases x <;> simp_all [isMap, isMapOf]
  · intro h
    rcases h with h | h
    · simp [isMapOf, isIterableOf, isIterable, h]
    · simp [isMapOf, isIterableOf, isIterable, h]
  · intro h1 h2
    cases isK <;> simp_all [Insp.isAnyRef]
    cases isV <;> simp_all [Insp.isAnyRef]
    simp [isMapOf, isIterableOf, isIterable, Insp.isNeverRef, Insp.isAnyRef]
  · intro h1 h2 h3 h4
    simp only [isMapOf, isIterableOf, isIterable, h1, h2, h3, h4,
      Bool.not_true, Bool.false_eq_true, if_false, jsIterate,
      Bool.and_eq_true, List.all_eq_true]
  · intro hKa h3 h4
    cases isK with
    | never => exact absurd hKa (by simp [Insp.isAnyRef])
    | custom f => exact absurd hKa (by simp [Insp.isAnyRef])
    | any =>
        have ha1 : Insp.isNeverRef .any = false := rfl
        have ha2 : Insp.isAnyRef .any = true := rfl
        simp [isMapOf, isIterableOf, isIterable, ha1, ha2, h3, h4,
          jsIterate, List.all_eq_true]
  · intro hVa h1 h2
    cases isV with
    | never => exact absurd hVa (by simp [Insp.isAnyRef])
    | custom f => exact absurd hVa (by simp [Insp.isAnyRef])
    | any =>
        have ha1 : Insp.isNeverRef .any = false := rfl
        have ha2 : Insp.isAnyRef .any = true := rfl
        simp [isMapOf, isIterableOf, isIterable, ha1, ha2, h1, h2,
          jsIterate, List.all_eq_true]

/-- C5 witness: a concrete one-entry map with concrete non-sentinel key
and value inspectors instantiating the amended characterisation, and the
same map with the isAny sentinel on the key side instantiating the
mixed-sentinel characterisation. -/
theorem spec_c5_witness :
    Insp.isNeverRef (.custom isString) = false ∧
    Insp.isAnyRef (.custom isString) = false ∧
    (isMapOf (.custom isString) (.custom isNumber)
        (.map 5 [(.str "a", .num (.fin 2))]) = true ↔
      (∀ k ∈ [(JValue.str "a", JValue.num (.fin 2))].map Prod.fst,
        Insp.apply (.custom isString) k = true) ∧
      (∀ v ∈ [(JValue.str "a", JValue.num (.fin 2))].map Prod.snd,
        Insp.apply (.custom isNumber) v = true)) ∧
    Insp.isAnyRef .any = true ∧
    (isMapOf .any (.custom isNumber)
        (.map 5 [(.str "a", .num (.fin 2))]) = true ↔
      ∀ v ∈ [(JValue.str "a", JValue.num (.fin 2))].map Prod.snd,
        Insp.apply (.custom isNumber) v = true) :=
  ⟨rfl, rfl,
    (spec_c5 (.custom isString) (.custom isNumber) 5
      [(.str "a", .num (.fin 2))] .undefined).2.2.2.1 rfl rfl rfl rfl,
    rfl,
    (spec_c5 .any (.custom isNumber) 5
      [(.str "a", .num (.fin 2))] .undefined).2.2.2.2.1 rfl rfl rfl⟩

/-- C6: applying is(supplier) to a value consults the current invocation
of the supplier: a throwing supplier propagates its exception unchanged
and never yields a boolean; a returning supplier has the inspector it
returned applied to the input immediately; and each application advances
the invocation counter, so a second application re-invokes the supplier
(its next numbered call) instead of reusing a cached inspector. -/
theorem spec_c6 (supplier : Nat → Except JsErr (JValue → Bool))
    (x y : JValue) (n : Nat) :
    (∀ e, supplier n = .error e → is supplier x n = .error e)
  ∧ (∀ f, supplier n = .ok f → is supplier x n = .ok (f x, n + 1))
  ∧ (∀ f g, supplier n = .ok f → supplier (n + 1) = .ok g →
      (is supplier x n).bind (fun p => is supplier y p.2) =
        .ok (g y, n + 2)) := by
  refine ⟨?_, ?_, ?_⟩
  · intro e h; simp [is, h]
  · intro f h; simp [is, h]
  · intro f g h1 h2
    simp [is, h1, h2, Except.bind]

/-- C6 witness: a concrete supplier that returns an inspector on its first
invocation and throws on its second, instantiating result propagation and
the per-application re-invocation. -/
theorem spec_c6_witness :
    (fun k : Nat => if k = 0 then (Except.ok isNumber : Except JsErr (JValue → Bool))
        else .error "unbound") 0 = .ok isNumber ∧
    is (fun k : Nat => if k = 0 then .ok isNumber else .error "unbound")
        (.num (.fin 3)) 0 = .ok (true, 1) ∧
    (fun k : Nat => if k = 0 then (Except.ok isNumber : Except JsErr (JValue → Bool))
        else .error "unbound") 1 = .error "unbound" ∧
    is (fun k : Nat => if k = 0 then .ok isNumber else .error "unbound")
        (.str "x") 1 = .error "unbound" :=
  ⟨rfl,
    (spec_c6 (fun k : Nat => if k = 0 then .ok isNumber else .error "unbound")
      (.num (.fin 3)) .undefined 0).2.1 isNumber rfl,
    rfl,
    (spec_c6 (fun k : Nat => if k = 0 then .ok isNumber else .error "unbound")
      (.str "x") .undefined 1).1 "unbound" rfl⟩

/-- C8 counterexample: isExact with the value NaN rejects NaN itself, so
the claimed reflexivity of the identity check at every value fails at the
concrete input NaN. -/
theorem spec_c8_cex : isExact (.num .nan) (.num .nan) = false := rfl

/-- C8 as amended: isExact(v) tests strict equality with v, which is
reflexive at every value other than the number NaN; isExact(NaN) rejects
every input, NaN included; and an object that is structurally equal to v
but carries a different reference is rejected, while the same reference is
accepted. -/
theorem spec_c8 (v x : JValue) (r t : Nat) (fs : List (String × JValue)) :
    (v ≠ .num .nan → isExact v v = true)
  ∧ isExact (.num .nan) x = false
  ∧ (r ≠ t → isExact (.obj r fs) (.obj t fs) = false)
  ∧ isExact (.obj r fs) (.obj r fs) = true := by
  refine ⟨?_, ?_, ?_, ?_⟩
  · intro h
    cases v with
    | num n =>
        cases n with
        | nan => exact absurd rfl h
        | inf b => simp [isExact, jsStrictEq, jsNumEq]
        | fin q => simp [isExact, jsStrictEq, jsNumEq]
    | _ => simp [isExact, jsStrictEq]
  · cases x with
    | num n => cases n <;> rfl
    | _ => rfl
  · intro h
    simp only [isExact, jsStrictEq]
    exact beq_eq_false_iff_ne.mpr fun he => h he.symm
  · simp [isExact, jsStrictEq]

/-- C8 witness: reflexivity at a concrete non-NaN value and rejection of a
structurally equal object under a distinct reference. -/
theorem spec_c8_witness :
    isExact (.str "a") (.str "a") = true ∧
    isExact (.obj 0 [("a", .null)]) (.obj 1 [("a", .null)]) = false ∧
    isExact (.obj 0 [("a", .null)]) (.obj 0 [("a", .null)]) = true :=
  ⟨(spec_c8 (.str "a") .undefined 0 1 [("a", .null)]).1
      (fun h => JValue.noConfusion h),
    (spec_c8 (.str "a") .undefined 0 1 [("a", .null)]).2.2.1 (by decide),
    (spec_c8 (.str "a") .undefined 0 1 [("a", .null)]).2.2.2⟩

/-- The unsigned-shift round-trip of isUInt32 holds on a finite number
exactly when it is a nonnegative integer below 2 to the 32. -/
theorem isUInt32_char (q : ℚ) :
    isUInt32 (.num (.fin q)) = true ↔
      ∃ m : ℕ, m < 4294967296 ∧ q = (m : ℚ) := by
  constructor
  · intro h
    have he : ((toUint32 (.fin q) : ℚ)) = q := by
      simpa [isUInt32, jsNumEq] using h
    refine ⟨toUint32 (.fin q), ?_, he.symm⟩
    have h0 : (0 : Int) ≤ ratTrunc q % 4294967296 :=
      Int.emod_nonneg _ (by decide)
    have h1 : ratTrunc q % 4294967296 < 4294967296 :=
      Int.emod_lt_of_pos _ (by decide)
    simp only [toUint32]
    omega
  · rintro ⟨m, hm, rfl⟩
    have ht : ratTrunc ((m : ℚ)) = (m : Int) := by
      simp [ratTrunc, Rat.num_natCast, Rat.den_natCast, Int.tdiv_one]
    have hmod : ((m : Int) % 4294967296) = (m : Int) :=
      Int.emod_eq_of_lt (by exact_mod_cast Nat.zero_le m) (by exact_mod_cast hm)
    simp [isUInt32, jsNumEq, toUint32, ht, hmod, Int.toNat_natCast]

/-- The integer-and-range test of isUInt8 holds on a finite number exactly
when it is a nonnegative integer at most 255. -/
theorem isUInt8_char (q : ℚ) :
    isUInt8 (.num (.fin q)) = true ↔ ∃ m : ℕ, m ≤ 255 ∧ q = (m : ℚ) := by
  simp only [isUInt8, Bool.and_eq_true, beq_iff_eq, decide_eq_true_eq]
  constructor
  · rintro ⟨⟨hden, h0⟩, h255⟩
    have hq : q = (q.num : ℚ) := by
      conv_lhs => rw [← Rat.num_div_den q]
      rw [hden]
      simp
    have hn0 : 0 ≤ q.num := Rat.num_nonneg.mpr h0
    have hn255 : q.num ≤ 255 := by
      rw [hq] at h255
      exact_mod_cast h255
    refine ⟨q.num.toNat, by omega, ?_⟩
    rw [hq]
    have hc : ((q.num.toNat : Int)) = q.num := Int.toNat_of_nonneg hn0
    exact_mod_cast hc.symm
  · rintro ⟨m, hm, rfl⟩
    exact ⟨⟨Rat.den_natCast m, Nat.cast_nonneg m⟩, by exact_mod_cast hm⟩

/-- C7: the numeric boundary behaviour: isUInt32 accepts 4294967295 and
rejects 4294967296 and -1 (it accepts exactly the finite numbers that
round-trip through the unsigned 32-bit conversion, the nonnegative
integers below 2 to the 32); isUInt8 accepts 255 and rejects 256 (it
accepts exactly the integers in [0, 255]); isInt rejects NaN and the
infinities while isNumber accepts NaN. -/
theorem spec_c7 :
    isUInt32 (.num (.fin 4294967295)) = true
  ∧ isUInt32 (.num (.fin 4294967296)) = false
  ∧ isUInt32 (.num (.fin (-1))) = false
  ∧ isUInt8 (.num (.fin 255)) = true
  ∧ isUInt8 (.num (.fin 256)) = false
  ∧ isInt (.num .nan) = false
  ∧ (∀ b, isInt (.num (.inf b)) = false)
  ∧ isNumber (.num .nan) = true
  ∧ (∀ q : ℚ, isUInt32 (.num (.fin q)) = true ↔
      ∃ m : ℕ, m < 4294967296 ∧ q = (m : ℚ))
  ∧ (∀ q : ℚ, isUInt8 (.num (.fin q)) = true ↔
      ∃ m : ℕ, m ≤ 255 ∧ q = (m : ℚ)) := by
  refine ⟨?_, ?_, ?_, ?_, ?_, rfl, fun b => rfl, rfl, isUInt32_char,
    isUInt8_char⟩
  · exact (isUInt32_char 4294967295).mpr ⟨4294967295, by norm_num, by norm_num⟩
  · cases hb : isUInt32 (.num (.fin 4294967296)) with
    | false => rfl
    | true =>
        rcases (isUInt32_char 4294967296).mp hb with ⟨m, hm, he⟩
        have hme : m = 4294967296 := by exact_mod_cast he.symm
        omega
  · cases hb : isUInt32 (.num (.fin (-1))) with
    | false => rfl
    | true =>
        rcases (isUInt32_char (-1)).mp hb with ⟨m, _, he⟩
        have h0 : (0 : ℚ) ≤ (m : ℚ) := Nat.cast_nonneg m
        rw [← he] at h0
        norm_num at h0
  · exact (isUInt8_char 255).mpr ⟨255, by norm_num, by norm_num⟩
  · cases hb : isUInt8 (.num (.fin 256)) with
    | false => rfl
    | true =>
        rcases (isUInt8_char 256).mp hb with ⟨m, hm, he⟩
        have hme : m = 256 := by exact_mod_cast he.symm
        omega

/-- C10: isPrimitive accepts exactly undefined, null, every number (NaN
and the infinities included), every string (primitive or boxed), and the
two boolean values; a boxed string counts as primitive through the
isString delegation, while boxed numbers and boxed booleans are
rejected. -/
theorem spec_c10 :
    (∀ x : JValue, isPrimitive x = true ↔
      (x = .undefined ∨ x = .null ∨ (∃ n, x = .num n) ∨ (∃ s, x = .str s) ∨
        (∃ r s, x = .boxedStr r s) ∨ x = .bool true ∨ x = .bool false))
  ∧ (∀ r s, isPrimitive (.boxedStr r s) = true)
  ∧ (∀ r n, isPrimitive (.boxedNum r n) = false)
  ∧ (∀ r b, isPrimitive (.boxedBool r b) = false) := by
  refine ⟨?_, fun r s => rfl, fun r n => rfl, fun r b => rfl⟩
  intro x
  cases x <;>
    simp [isPrimitive, isNullish, isNumber, isString, isBoolean, jsStrictEq]

end Inspect
